import Mathlib

/-!
Verification of the commute-time enrichment core of the `hollakyak`
repository (`calculate_routes_to_capitals.py`) against its specification.

The script is embedded shallowly:

* Python dicts become insertion-ordered association lists (`Dict`), with
  `dinsert` matching Python dict assignment (update the existing entry in
  place, otherwise append) and `dlookup` matching subscript/`get` access.
* The main loop's per-town steps (county normalization, destination-set
  construction, the Routes-API result processing, the reducer that picks
  the nearest capital, and the SQL `UPDATE ... WHERE name = ?`) are each
  translated into a Lean function, and the loop itself into a fold over
  the processed slice of the town list.
* The external Routes API call is a parameter: `none` models the whole
  call raising an exception (network/auth/quota), `some elems` models a
  successful call returning a stream of route-matrix elements, each with
  a status code, a duration in seconds, and a destination index.
-/

set_option autoImplicit false

namespace Hollakyak

/-- Insertion-ordered string-keyed map, modelling a Python dict's items. -/
abbrev Dict (α : Type) := List (String × α)

/-- Python `d[k]` / `d.get(k)`: the value at the first (unique) matching key. -/
def dlookup {α : Type} (k : String) : Dict α → Option α
  | [] => none
  | (k', v) :: rest => if k' = k then some v else dlookup k rest

/-- Python `d[k] = v`: overwrite the existing entry in place, else append. -/
def dinsert {α : Type} (k : String) (v : α) : Dict α → Dict α
  | [] => [(k, v)]
  | (k', v') :: rest => if k' = k then (k, v) :: rest else (k', v') :: dinsert k v rest

/-- The keys of a dict, in iteration order. -/
def dkeys {α : Type} (d : Dict α) : List String := d.map Prod.fst

/-- Coordinates as stored on a town row.  The enrichment logic only carries
coordinates through (it never computes with them), so the numeric type is
irrelevant; integers keep everything decidable. -/
structure Coords where
  latitude : Int
  longitude : Int
deriving DecidableEq

/-- One value of `county_neighbors.json`: `{"capital": ..., "neighbors": [...]}`.
Both fields are read with `.get`, so each may be absent. -/
structure CountyRec where
  capital : Option String
  neighbors : Option (List String)
deriving DecidableEq

/-- Python `s.replace(pat, '')` on char lists: scan left to right, erase each
non-overlapping occurrence of `pat`.  The extra `fuel` argument (instantiated
with the length of the scanned list, which only shrinks) makes the recursion
structural so that the kernel can evaluate it. -/
def pyEraseAll (pat : List Char) : Nat → List Char → List Char
  | _, [] => []
  | 0, l => l
  | fuel + 1, c :: rest =>
    if 0 < pat.length ∧ (c :: rest).take pat.length = pat then
      pyEraseAll pat fuel ((c :: rest).drop pat.length)
    else
      c :: pyEraseAll pat fuel rest

/-- Line 164: `town_county = town['county'].replace(' vármegye', '')`. -/
def normalizeCounty (c : String) : String :=
  String.mk (pyEraseAll " vármegye".toList c.toList.length c.toList)

/-- Lines 173-176: one iteration of the destination-collection loop.
`capital_name = county_data.get(county_name, {}).get('capital')`, then
`if capital_name and capital_name in capital_coords_map:` add it. -/
def addCapital (cd : Dict CountyRec) (cap : Dict Coords) (dests : Dict Coords)
    (countyName : String) : Dict Coords :=
  match (dlookup countyName cd).bind (fun r => r.capital) with
  | some capName =>
    if capName ≠ "" then
      match dlookup capName cap with
      | some coords => dinsert capName coords dests
      | none => dests
    else dests
  | none => dests

/-- Lines 163-180 of `main`: normalize the county, skip the town (`none`)
when it is not a key of the county reference, otherwise fold the collection
loop over `[town_county] + neighbors` and finally add Budapest when its
coordinates are known. -/
def buildDestinations (cd : Dict CountyRec) (cap : Dict Coords)
    (countyRaw : String) : Option (Dict Coords) :=
  match dlookup (normalizeCounty countyRaw) cd with
  | none => none
  | some r =>
    let relevant := normalizeCounty countyRaw :: r.neighbors.getD []
    let d0 := relevant.foldl (addCapital cd cap) []
    some (match dlookup "Budapest" cap with
          | some coords => dinsert "Budapest" coords d0
          | none => d0)

/-- The record written back per town (the three commute fields). -/
structure ReducedRecord where
  budapest_mins : Option Nat
  nearest_capital_mins : Option Nat
  nearest_capital_name : Option String
deriving DecidableEq

/-- Lines 193-196: `{name: mins for name, mins in commute_results.items()
if name != "Budapest" and mins is not None}`. -/
def capitalCommutes (res : Dict (Option Nat)) : Dict Nat :=
  res.filterMap (fun p =>
    match p with
    | (n, some m) => if n = "Budapest" then none else some (n, m)
    | (_, none) => none)

/-- Python `min(d, key=d.get)` together with the value at the returned key:
the first entry (in iteration order) with the minimal value. -/
def minByValue (l : Dict Nat) : Option (String × Nat) :=
  match l with
  | [] => none
  | p :: rest => some (rest.foldl (fun best q => if q.2 < best.2 then q else best) p)

/-- Lines 190-212 of `main`: extract `commute_results.get("Budapest")`, build
`capital_commutes`, and either take its argmin or leave the nearest-capital
fields unset.  `nearest_capital_mins` mirrors `capital_commutes[name]`. -/
def reduceResults (res : Dict (Option Nat)) : ReducedRecord :=
  let bud := (dlookup "Budapest" res).join
  let cc := capitalCommutes res
  match minByValue cc with
  | some (n, _) =>
    { budapest_mins := bud,
      nearest_capital_mins := dlookup n cc,
      nearest_capital_name := some n }
  | none =>
    { budapest_mins := bud, nearest_capital_mins := none, nearest_capital_name := none }

/-- Line 128: `round(duration_seconds / 60)` — Python 3 `round` is
round-half-to-even, taken here on the exact rational `seconds/60`. -/
def roundMinutes (seconds : Nat) : Nat :=
  let q := seconds / 60
  let r := seconds % 60
  if 2 * r < 60 then q
  else if 60 < 2 * r then q + 1
  else if q % 2 = 0 then q else q + 1

/-- One element of the `computeRouteMatrix` response stream: its status code
(0 = OK), route duration in seconds, and destination index. -/
structure MatrixElement where
  statusCode : Int
  durationSeconds : Nat
  destinationIndex : Nat
deriving DecidableEq

/-- Lines 125-134: one stream element either records rounded minutes (status
code 0) or records `None` for its destination (a per-destination failure).
`destination_names[element.destination_index]` is modelled totally with a
default; the API contract keeps every index within the request's
destinations, which is what the theorems assume. -/
def recordElement (destNames : List String) (res : Dict (Option Nat))
    (e : MatrixElement) : Dict (Option Nat) :=
  if e.statusCode = 0 then
    dinsert (destNames.getD e.destinationIndex "") (some (roundMinutes e.durationSeconds)) res
  else
    dinsert (destNames.getD e.destinationIndex "") none res

/-- Lines 123-135: fold the response stream into the `results` dict. -/
def processElements (destNames : List String) (elems : List MatrixElement) :
    Dict (Option Nat) :=
  elems.foldl (recordElement destNames) []

/-- Lines 86-135, `calculate_commute_times`: empty destinations short-circuit
to `{}` before the API call; a raised exception (`apiCall = none`) yields
`None`; otherwise the response stream is folded into the results dict. -/
def calculate_commute_times (dests : Dict Coords)
    (apiCall : Option (List MatrixElement)) : Option (Dict (Option Nat)) :=
  if dests.isEmpty then some []
  else
    match apiCall with
    | none => none
    | some elems => some (processElements (dkeys dests) elems)

/-- One row of the `towns` table: the columns created by `scrape_towns.py`
plus the three commute columns added by `add_commute_columns`. -/
structure TownRow where
  name : String
  typ : String
  county : String
  kisterseg : String
  jaras : String
  population : Option Nat
  zip_code : String
  mayor : String
  latitude : Option Int
  longitude : Option Int
  commute_budapest_mins : Option Nat
  commute_nearest_capital_mins : Option Nat
  nearest_capital_name : Option String
deriving DecidableEq

/-- Lines 46-58, `update_town_in_db`: `UPDATE towns SET commute_budapest_mins
= ?, commute_nearest_capital_mins = ?, nearest_capital_name = ? WHERE name =
?` — every row whose name matches gets exactly the three commute fields
overwritten; nothing else changes; no match means no change. -/
def update_town_in_db (db : List TownRow) (town_name : String)
    (budapest_mins nearest_capital_mins : Option Nat)
    (nearest_capital_name : Option String) : List TownRow :=
  db.map (fun r =>
    if r.name = town_name then
      { r with
        commute_budapest_mins := budapest_mins,
        commute_nearest_capital_mins := nearest_capital_mins,
        nearest_capital_name := nearest_capital_name }
    else r)

/-- A town as returned by `get_all_towns_data` (rows with non-null
coordinates, so the coordinates are present). -/
structure Town where
  name : String
  county : String
  latitude : Int
  longitude : Int
deriving DecidableEq

/-- Lines 160-215, the body of the per-town loop: build the destination set
(skipping towns with an unrecognized county), call the oracle (skipping the
town when the whole call fails), reduce the results and write them back. -/
def processTown (cd : Dict CountyRec) (cap : Dict Coords)
    (apiCall : Option (List MatrixElement)) (db : List TownRow) (t : Town) :
    List TownRow :=
  match buildDestinations cd cap t.county with
  | none => db
  | some dests =>
    match calculate_commute_times dests apiCall with
    | none => db
    | some res =>
      let red := reduceResults res
      update_town_in_db db t.name red.budapest_mins red.nearest_capital_mins
        red.nearest_capital_name

/-- The enrichment loop over a list of towns; the oracle outcome is a
function of the town being processed. -/
def runPass (cd : Dict CountyRec) (cap : Dict Coords)
    (oracle : Town → Option (List MatrixElement)) (db : List TownRow)
    (towns : List Town) : List TownRow :=
  towns.foldl (fun db t => processTown cd cap (oracle t) db t) db

/-- Line 160: `for i, town in enumerate(all_towns[500:1000])` — the slice
actually iterated. -/
def townsToProcess (all_towns : List Town) : List Town :=
  (all_towns.drop 500).take 500

/-- The whole enrichment pass of `main`: the loop runs over the slice only. -/
def mainEnrichment (cd : Dict CountyRec) (cap : Dict Coords)
    (oracle : Town → Option (List MatrixElement)) (db : List TownRow)
    (all_towns : List Town) : List TownRow :=
  runPass cd cap oracle db (townsToProcess all_towns)

/-- A sample stored town row (used to instantiate the write-side theorems). -/
def rowA : TownRow :=
  { name := "A", typ := "község", county := "Fejér vármegye", kisterseg := "k",
    jaras := "j", population := some 1200, zip_code := "8000", mayor := "M",
    latitude := some 47, longitude := some 18,
    commute_budapest_mins := some 55, commute_nearest_capital_mins := some 20,
    nearest_capital_name := some "Székesfehérvár" }

/-- A second sample stored town row with a different name. -/
def rowB : TownRow :=
  { name := "B", typ := "város", county := "Somogy vármegye", kisterseg := "k2",
    jaras := "j2", population := some 3400, zip_code := "7400", mayor := "N",
    latitude := some 46, longitude := some 17,
    commute_budapest_mins := none, commute_nearest_capital_mins := none,
    nearest_capital_name := none }

/-- A sample town as read by `get_all_towns_data`. -/
def tSample : Town := { name := "T", county := "X", latitude := 47, longitude := 18 }

/-- A stored row for the sample town `tSample`. -/
def rowT : TownRow :=
  { name := "T", typ := "község", county := "X", kisterseg := "k", jaras := "j",
    population := some 900, zip_code := "9999", mayor := "P",
    latitude := some 47, longitude := some 18,
    commute_budapest_mins := some 80, commute_nearest_capital_mins := some 33,
    nearest_capital_name := some "Xc" }

/-! ### Dict lemmas -/

theorem dlookup_dinsert_self {α : Type} (d : Dict α) (k : String) (v : α) :
    dlookup k (dinsert k v d) = some v := by
  induction d with
  | nil => simp [dinsert, dlookup]
  | cons p rest ih =>
    by_cases h : p.1 = k
    · simp [dinsert, dlookup, h]
    · simp [dinsert, dlookup, h, ih]

theorem dlookup_dinsert_ne {α : Type} (d : Dict α) {k k' : String} (v : α)
    (h : k' ≠ k) : dlookup k (dinsert k' v d) = dlookup k d := by
  induction d with
  | nil => simp [dinsert, dlookup, h]
  | cons p rest ih =>
    by_cases hp : p.1 = k'
    · simp [dinsert, dlookup, hp, h]
    · simp only [dinsert, hp, if_false, dlookup]
      rw [ih]

theorem dinsert_ne_nil {α : Type} (d : Dict α) (k : String) (v : α) :
    dinsert k v d ≠ [] := by
  cases d with
  | nil => simp [dinsert]
  | cons p rest =>
    by_cases h : p.1 = k <;> simp [dinsert, h]

theorem length_dinsert_le {α : Type} (d : Dict α) (k : String) (v : α) :
    (dinsert k v d).length ≤ d.length + 1 := by
  induction d with
  | nil => simp [dinsert]
  | cons p rest ih =>
    by_cases h : p.1 = k
    · simp [dinsert, h]
    · simpa [dinsert, h, Nat.succ_le_succ_iff] using ih

theorem dkeys_dinsert {α : Type} (d : Dict α) (k : String) (v : α) :
    dkeys (dinsert k v d) =
      if k ∈ dkeys d then dkeys d else dkeys d ++ [k] := by
  induction d with
  | nil => simp [dinsert, dkeys]
  | cons p rest ih =>
    by_cases h : p.1 = k
    · simp [dinsert, dkeys, h]
    · have hne : ¬ k = p.1 := fun hk => h hk.symm
      have e1 : dinsert k v (p :: rest) = p :: dinsert k v rest := by
        simp [dinsert, h]
      have e2 : ∀ (q : String × α) (l : Dict α), dkeys (q :: l) = q.1 :: dkeys l :=
        fun _ _ => rfl
      rw [e1, e2, ih, e2]
      by_cases hm : k ∈ dkeys rest
      · simp [List.mem_cons, hne, hm]
      · simp [List.mem_cons, hne, hm]

theorem nodup_dkeys_dinsert {α : Type} (d : Dict α) (k : String) (v : α)
    (h : (dkeys d).Nodup) : (dkeys (dinsert k v d)).Nodup := by
  rw [dkeys_dinsert]
  by_cases hm : k ∈ dkeys d
  · simpa [hm] using h
  · simp only [hm, if_false]
    refine List.nodup_append.mpr ⟨h, List.nodup_singleton k, ?_⟩
    intro a ha hak
    rw [List.mem_singleton] at hak
    subst hak
    exact hm ha

theorem dlookup_of_mem_nodup {α : Type} {l : Dict α} {k : String} {v : α}
    (hn : (dkeys l).Nodup) (hm : (k, v) ∈ l) : dlookup k l = some v := by
  induction l with
  | nil => cases hm
  | cons p rest ih =>
    have hn2 : (p.1 :: dkeys rest).Nodup := hn
    have hn' := List.nodup_cons.mp hn2
    rcases List.mem_cons.mp hm with h | h
    · rw [← h]
      simp [dlookup]
    · have hk : ¬ p.1 = k := by
        intro he
        apply hn'.1
        rw [he]
        exact List.mem_map_of_mem Prod.fst h
      simp only [dlookup, hk, if_false]
      exact ih hn'.2 h

/-! ### Destination-set construction lemmas -/

theorem length_addCapital_le (cd : Dict CountyRec) (cap : Dict Coords)
    (d : Dict Coords) (c : String) :
    (addCapital cd cap d c).length ≤ d.length + 1 := by
  unfold addCapital
  cases (dlookup c cd).bind (fun r => r.capital) with
  | none => exact Nat.le_succ _
  | some capName =>
    by_cases he : capName = ""
    · simp only [he, ne_eq, not_true_eq_false, if_false]
      exact Nat.le_succ _
    · simp only [ne_eq, he, not_false_eq_true, if_true]
      cases dlookup capName cap with
      | none => exact Nat.le_succ _
      | some coords => exact length_dinsert_le d capName coords

theorem length_foldl_addCapital (cd : Dict CountyRec) (cap : Dict Coords) :
    ∀ (l : List String) (acc : Dict Coords),
      (l.foldl (addCapital cd cap) acc).length ≤ acc.length + l.length := by
  intro l
  induction l with
  | nil => intro acc; simp
  | cons c rest ih =>
    intro acc
    simp only [List.foldl_cons, List.length_cons]
    calc (List.foldl (addCapital cd cap) (addCapital cd cap acc c) rest).length
        ≤ (addCapital cd cap acc c).length + rest.length := ih _
      _ ≤ (acc.length + 1) + rest.length :=
          Nat.add_le_add_right (length_addCapital_le cd cap acc c) _
      _ = acc.length + (rest.length + 1) := by omega

theorem nodup_addCapital (cd : Dict CountyRec) (cap : Dict Coords)
    (d : Dict Coords) (c : String) (h : (dkeys d).Nodup) :
    (dkeys (addCapital cd cap d c)).Nodup := by
  unfold addCapital
  cases (dlookup c cd).bind (fun r => r.capital) with
  | none => exact h
  | some capName =>
    by_cases he : capName = ""
    · simp only [he, ne_eq, not_true_eq_false, if_false]
      exact h
    · simp only [ne_eq, he, not_false_eq_true, if_true]
      cases dlookup capName cap with
      | none => exact h
      | some coords => exact nodup_dkeys_dinsert d capName coords h

theorem nodup_foldl_addCapital (cd : Dict CountyRec) (cap : Dict Coords) :
    ∀ (l : List String) (acc : Dict Coords), (dkeys acc).Nodup →
      (dkeys (l.foldl (addCapital cd cap) acc)).Nodup := by
  intro l
  induction l with
  | nil => intro acc h; exact h
  | cons c rest ih =>
    intro acc h
    simp only [List.foldl_cons]
    exact ih _ (nodup_addCapital cd cap acc c h)

/-! ### Minimum-selection lemmas -/

theorem foldl_min_mem (rest : Dict Nat) : ∀ (p : String × Nat),
    List.foldl (fun best q => if q.2 < best.2 then q else best) p rest ∈ p :: rest := by
  induction rest with
  | nil => intro p; simp
  | cons q rest ih =>
    intro p
    simp only [List.foldl_cons]
    rcases List.mem_cons.mp (ih (if q.2 < p.2 then q else p)) with h1 | h1
    · rw [h1]
      by_cases h : q.2 < p.2 <;> simp [h]
    · exact List.mem_cons_of_mem _ (List.mem_cons_of_mem _ h1)

theorem foldl_min_le_init (rest : Dict Nat) : ∀ (p : String × Nat),
    (List.foldl (fun best q => if q.2 < best.2 then q else best) p rest).2 ≤ p.2 := by
  induction rest with
  | nil => intro p; simp
  | cons q rest ih =>
    intro p
    simp only [List.foldl_cons]
    by_cases h : q.2 < p.2
    · rw [if_pos h]
      exact le_trans (ih q) (le_of_lt h)
    · rw [if_neg h]
      exact ih p

theorem foldl_min_le_mem (rest : Dict Nat) : ∀ (p q : String × Nat), q ∈ rest →
    (List.foldl (fun best r => if r.2 < best.2 then r else best) p rest).2 ≤ q.2 := by
  induction rest with
  | nil => intro p q hq; cases hq
  | cons r rest ih =>
    intro p q hq
    simp only [List.foldl_cons]
    rcases List.mem_cons.mp hq with h1 | h1
    · subst h1
      by_cases h : q.2 < p.2
      · rw [if_pos h]
        exact foldl_min_le_init rest q
      · rw [if_neg h]
        exact le_trans (foldl_min_le_init rest p) (Nat.not_lt.mp h)
    · exact ih _ q h1

theorem minByValue_mem {l : Dict Nat} {p : String × Nat}
    (h : minByValue l = some p) : p ∈ l := by
  cases l with
  | nil => simp [minByValue] at h
  | cons r rest =>
    simp only [minByValue, Option.some.injEq] at h
    rw [← h]
    exact foldl_min_mem rest r

theorem minByValue_le {l : Dict Nat} {p : String × Nat}
    (h : minByValue l = some p) : ∀ q ∈ l, p.2 ≤ q.2 := by
  cases l with
  | nil => simp [minByValue] at h
  | cons r rest =>
    simp only [minByValue, Option.some.injEq] at h
    intro q hq
    rw [← h]
    rcases List.mem_cons.mp hq with h1 | h1
    · rw [h1]
      exact foldl_min_le_init rest r
    · exact foldl_min_le_mem rest r q h1

/-! ### Reducer lemmas -/

theorem mem_capitalCommutes {res : Dict (Option Nat)} {n : String} {m : Nat} :
    (n, m) ∈ capitalCommutes res ↔ (n, some m) ∈ res ∧ ¬ n = "Budapest" := by
  unfold capitalCommutes
  rw [List.mem_filterMap]
  constructor
  · rintro ⟨⟨n', m'⟩, hp, he⟩
    cases m' with
    | none => simp at he
    | some mv =>
      by_cases hb : n' = "Budapest"
      · simp [hb] at he
      · simp only [hb, if_false] at he
        have h1 : n' = n := congrArg Prod.fst (Option.some.inj he)
        have h2 : mv = m := congrArg Prod.snd (Option.some.inj he)
        rw [← h1, ← h2]
        exact ⟨hp, hb⟩
  · rintro ⟨hm, hb⟩
    exact ⟨(n, some m), hm, by simp [hb]⟩

theorem dkeys_capitalCommutes_sublist (res : Dict (Option Nat)) :
    List.Sublist (dkeys (capitalCommutes res)) (dkeys res) := by
  induction res with
  | nil => simp [capitalCommutes, dkeys]
  | cons p rest ih =>
    rcases p with ⟨n, m⟩
    cases m with
    | none =>
      have e : capitalCommutes ((n, none) :: rest) = capitalCommutes rest := by
        simp [capitalCommutes]
      rw [e]
      exact List.Sublist.cons n ih
    | some mv =>
      by_cases hb : n = "Budapest"
      · have e : capitalCommutes ((n, some mv) :: rest) = capitalCommutes rest := by
          simp [capitalCommutes, hb]
        rw [e]
        exact List.Sublist.cons n ih
      · have e : capitalCommutes ((n, some mv) :: rest) =
            (n, mv) :: capitalCommutes rest := by
          simp [capitalCommutes, hb]
        rw [e]
        exact List.Sublist.cons₂ n ih

theorem nodup_dkeys_capitalCommutes {res : Dict (Option Nat)}
    (hn : (dkeys res).Nodup) : (dkeys (capitalCommutes res)).Nodup :=
  List.Nodup.sublist (dkeys_capitalCommutes_sublist res) hn

/-! ### Response-stream processing lemmas -/

theorem dlookup_foldl_recordElement_of_notin (destNames : List String) :
    ∀ (elems : List MatrixElement) (acc : Dict (Option Nat)) (k : String),
      (∀ e ∈ elems, destNames.getD e.destinationIndex "" ≠ k) →
      dlookup k (elems.foldl (recordElement destNames) acc) = dlookup k acc := by
  intro elems
  induction elems with
  | nil => intro acc k _; rfl
  | cons e rest ih =>
    intro acc k h
    simp only [List.foldl_cons]
    rw [ih _ k (fun e' he' => h e' (List.mem_cons_of_mem _ he'))]
    unfold recordElement
    by_cases hs : e.statusCode = 0 <;>
      simp only [hs, if_true, if_false] <;>
      exact dlookup_dinsert_ne acc _ (h e (List.mem_cons_self e rest))

theorem dlookup_foldl_recordElement_of_mem (destNames : List String) :
    ∀ (elems : List MatrixElement) (acc : Dict (Option Nat)) (e : MatrixElement),
      e ∈ elems →
      List.Pairwise
        (fun a b => destNames.getD a.destinationIndex "" ≠
          destNames.getD b.destinationIndex "") elems →
      dlookup (destNames.getD e.destinationIndex "")
          (elems.foldl (recordElement destNames) acc) =
        some (if e.statusCode = 0 then some (roundMinutes e.durationSeconds) else none) := by
  intro elems
  induction elems with
  | nil => intro acc e he; cases he
  | cons e0 rest ih =>
    intro acc e he hp
    have hp' := List.pairwise_cons.mp hp
    simp only [List.foldl_cons]
    rcases List.mem_cons.mp he with h1 | h1
    · subst h1
      rw [dlookup_foldl_recordElement_of_notin destNames rest _ _
        (fun e' he' => (hp'.1 e' he').symm)]
      unfold recordElement
      by_cases hs : e.statusCode = 0 <;>
        simp only [hs, if_true, if_false] <;>
        exact dlookup_dinsert_self acc _ _
    · exact ih _ e h1 hp'.2

theorem pairwise_names_of_nodup (destNames : List String) (elems : List MatrixElement)
    (hN : destNames.Nodup)
    (hI : (elems.map (fun e => e.destinationIndex)).Nodup)
    (hB : ∀ e ∈ elems, e.destinationIndex < destNames.length) :
    List.Pairwise
      (fun a b => destNames.getD a.destinationIndex "" ≠
        destNames.getD b.destinationIndex "") elems := by
  have hp : List.Pairwise
      (fun a b : MatrixElement => a.destinationIndex ≠ b.destinationIndex) elems :=
    List.pairwise_map.mp hI
  refine List.Pairwise.imp_of_mem ?_ hp
  intro a b ha hb hne heq
  apply hne
  rw [List.getD_eq_getElem destNames "" (hB a ha),
    List.getD_eq_getElem destNames "" (hB b hb)] at heq
  exact (List.Nodup.getElem_inj_iff hN).mp heq

/-! ### Database-write lemmas -/

theorem getElem?_update_town_in_db (db : List TownRow) (n : String)
    (b m : Option Nat) (s : Option String) (i : Nat) :
    (update_town_in_db db n b m s)[i]? = (db[i]?).map (fun r =>
      if r.name = n then
        { r with
          commute_budapest_mins := b,
          commute_nearest_capital_mins := m,
          nearest_capital_name := s }
      else r) := by
  unfold update_town_in_db
  exact List.getElem?_map _ db i

theorem processTown_preserves_other (cd : Dict CountyRec) (cap : Dict Coords)
    (apiCall : Option (List MatrixElement)) (db : List TownRow) (t : Town)
    (i : Nat) (r : TownRow) (hr : db[i]? = some r) (hn : ¬ r.name = t.name) :
    (processTown cd cap apiCall db t)[i]? = some r := by
  cases h1 : buildDestinations cd cap t.county with
  | none =>
    simp only [processTown, h1]
    exact hr
  | some dests =>
    cases h2 : calculate_commute_times dests apiCall with
    | none =>
      simp only [processTown, h1, h2]
      exact hr
    | some res =>
      simp only [processTown, h1, h2, getElem?_update_town_in_db, hr]
      simp [hn]

theorem runPass_preserves_other (cd : Dict CountyRec) (cap : Dict Coords)
    (oracle : Town → Option (List MatrixElement)) :
    ∀ (towns : List Town) (db : List TownRow) (i : Nat) (r : TownRow),
      db[i]? = some r → (∀ t ∈ towns, ¬ t.name = r.name) →
      (runPass cd cap oracle db towns)[i]? = some r := by
  intro towns
  induction towns with
  | nil => intro db i r hr _; exact hr
  | cons t rest ih =>
    intro db i r hr h
    simp only [runPass, List.foldl_cons] at ih ⊢
    refine ih _ i r ?_ (fun t' ht' => h t' (List.mem_cons_of_mem _ ht'))
    exact processTown_preserves_other cd cap (oracle t) db t i r hr
      (fun he => h t (List.mem_cons_self t rest) he.symm)

/-! ### Claim theorems -/

/-- C1 (counterexample): when the capital coordinate map lacks Budapest
(allowed by the Capital Coordinate Resolver contract), a processed town's
destination set is empty and does not contain the primary capital, so the
claim as stated fails. -/
theorem budapest_absent_plan_empty :
    buildDestinations [("X", CountyRec.mk (some "Xc") (some []))] [] "X vármegye" =
      some [] ∧
    dlookup "Budapest" ([] : Dict Coords) = none := by
  exact ⟨by decide, rfl⟩

/-- C1 (amended): for every town processed in an enrichment pass, provided the
primary capital's coordinates are present in the capital coordinate map, the
built destination set contains the primary capital (Budapest) and is
non-empty, regardless of the town's county. -/
theorem plan_contains_primary_of_primary_coords
    (cd : Dict CountyRec) (cap : Dict Coords) (countyRaw : String)
    (bc : Coords) (d : Dict Coords)
    (hbud : dlookup "Budapest" cap = some bc)
    (hplan : buildDestinations cd cap countyRaw = some d) :
    dlookup "Budapest" d = some bc ∧ d ≠ [] := by
  cases h1 : dlookup (normalizeCounty countyRaw) cd with
  | none => simp [buildDestinations, h1] at hplan
  | some r =>
    simp only [buildDestinations, h1, hbud] at hplan
    rw [← Option.some.inj hplan]
    exact ⟨dlookup_dinsert_self _ _ _, dinsert_ne_nil _ _ _⟩

/-- C1 (witness): concrete instance of the amended claim. -/
theorem plan_contains_primary_witness :
    dlookup "Budapest" [("Budapest", Coords.mk 1 1)] = some (Coords.mk 1 1) ∧
    ([("Budapest", Coords.mk 1 1)] : Dict Coords) ≠ [] :=
  plan_contains_primary_of_primary_coords
    [("X", CountyRec.mk (some "Xc") (some []))] [("Budapest", Coords.mk 1 1)]
    "X vármegye" (Coords.mk 1 1) [("Budapest", Coords.mk 1 1)]
    (by decide) (by decide)

/-- C2 (counterexample): a recognized county with one declared neighbor, whose
own capital, the neighbor's capital and Budapest are three distinct known
capitals, yields a destination set of size 3 > 1 + 1, so the claimed bound
(1 + number of neighbors) fails. -/
theorem plan_size_exceeds_one_plus_neighbors :
    (buildDestinations
        [("X", CountyRec.mk (some "Xc") (some ["Y"])),
         ("Y", CountyRec.mk (some "Yc") (some []))]
        [("Xc", Coords.mk 1 1), ("Yc", Coords.mk 2 2), ("Budapest", Coords.mk 3 3)]
        "X").map List.length = some 3 ∧
    ¬ (3 ≤ 1 + (["Y"] : List String).length) := by
  exact ⟨by decide, by decide⟩

/-- C2 (amended): for every town with a recognized county, the destination
set has pairwise-distinct capital names and its size is at most 2 plus the
number of declared neighbors of the town's county (own capital, neighbor
capitals, plus the unconditionally attempted primary capital, after
deduplication by name). -/
theorem plan_size_le_neighbors_add_two
    (cd : Dict CountyRec) (cap : Dict Coords) (countyRaw : String)
    (r : CountyRec) (d : Dict Coords)
    (hc : dlookup (normalizeCounty countyRaw) cd = some r)
    (hplan : buildDestinations cd cap countyRaw = some d) :
    (dkeys d).Nodup ∧ d.length ≤ (r.neighbors.getD []).length + 2 := by
  have hlen := length_foldl_addCapital cd cap
    (normalizeCounty countyRaw :: r.neighbors.getD []) []
  have hnodup := nodup_foldl_addCapital cd cap
    (normalizeCounty countyRaw :: r.neighbors.getD []) [] (by simp [dkeys])
  simp only [List.length_cons, List.length_nil, Nat.zero_add] at hlen
  cases hb : dlookup "Budapest" cap with
  | none =>
    simp only [buildDestinations, hc, hb] at hplan
    rw [← Option.some.inj hplan]
    exact ⟨hnodup, by omega⟩
  | some bc =>
    simp only [buildDestinations, hc, hb] at hplan
    rw [← Option.some.inj hplan]
    refine ⟨nodup_dkeys_dinsert _ _ _ hnodup, ?_⟩
    have := length_dinsert_le
      ((normalizeCounty countyRaw :: r.neighbors.getD []).foldl (addCapital cd cap) [])
      "Budapest" bc
    omega

/-- C2 (witness): concrete instance of the amended bound. -/
theorem plan_size_le_neighbors_add_two_witness :
    (dkeys [("Xc", Coords.mk 1 1), ("Yc", Coords.mk 2 2),
      ("Budapest", Coords.mk 3 3)]).Nodup ∧
    ([("Xc", Coords.mk 1 1), ("Yc", Coords.mk 2 2),
      ("Budapest", Coords.mk 3 3)] : Dict Coords).length ≤
      (((CountyRec.mk (some "Xc") (some ["Y"])).neighbors.getD []).length + 2) :=
  plan_size_le_neighbors_add_two
    [("X", CountyRec.mk (some "Xc") (some ["Y"])),
     ("Y", CountyRec.mk (some "Yc") (some []))]
    [("Xc", Coords.mk 1 1), ("Yc", Coords.mk 2 2), ("Budapest", Coords.mk 3 3)]
    "X" (CountyRec.mk (some "Xc") (some ["Y"]))
    [("Xc", Coords.mk 1 1), ("Yc", Coords.mk 2 2), ("Budapest", Coords.mk 3 3)]
    (by decide) (by decide)

/-- C3 (counterexample): normalization is just the suffix strip — there is no
alias table.  With the county reference keyed by the renamed county
"Csongrád-Csanád", the historical alias "Csongrád vármegye" normalizes to
"Csongrád", which resolves to no CountyInfo at all (while the canonical name
resolves), and the town is skipped. -/
theorem alias_not_resolved :
    normalizeCounty "Csongrád vármegye" = "Csongrád" ∧
    dlookup "Csongrád"
      [("Csongrád-Csanád", CountyRec.mk (some "Szeged") (some []))] = none ∧
    dlookup "Csongrád-Csanád"
      [("Csongrád-Csanád", CountyRec.mk (some "Szeged") (some []))] =
      some (CountyRec.mk (some "Szeged") (some [])) ∧
    buildDestinations
      [("Csongrád-Csanád", CountyRec.mk (some "Szeged") (some []))] []
      "Csongrád vármegye" = none := by
  exact ⟨by decide, by decide, by decide, by decide⟩

/-- C3 (amended): county normalization only strips the administrative suffix
" vármegye" and applies no alias corrections; any county string whose
normalization is not a key of the county reference — including a known
historical alias of a renamed county — causes the town to be skipped for the
pass (no destination set, no write), not a fatal error. -/
theorem unrecognized_county_skipped
    (cd : Dict CountyRec) (cap : Dict Coords) (countyRaw : String)
    (h : dlookup (normalizeCounty countyRaw) cd = none) :
    buildDestinations cd cap countyRaw = none ∧
    (∀ (apiCall : Option (List MatrixElement)) (db : List TownRow) (t : Town),
      t.county = countyRaw → processTown cd cap apiCall db t = db) := by
  have hbd : buildDestinations cd cap countyRaw = none := by
    simp [buildDestinations, h]
  refine ⟨hbd, ?_⟩
  intro apiCall db t ht
  simp only [processTown, ht, hbd]

/-- C3 (witness): concrete skip of a town with an unmappable county. -/
theorem unrecognized_county_skipped_witness :
    buildDestinations
      [("Csongrád-Csanád", CountyRec.mk (some "Szeged") (some []))] []
      "Nógrád vármegye" = none ∧
    processTown
      [("Csongrád-Csanád", CountyRec.mk (some "Szeged") (some []))] [] none
      [rowA] (Town.mk "N" "Nógrád vármegye" 48 19) = [rowA] :=
  have h := unrecognized_county_skipped
    [("Csongrád-Csanád", CountyRec.mk (some "Szeged") (some []))] []
    "Nógrád vármegye" (by decide)
  ⟨h.1, h.2 none [rowA] (Town.mk "N" "Nógrád vármegye" 48 19) rfl⟩

/-- C4: the Reducer sets `budapest_minutes` to the result recorded for the
primary capital; whenever the non-primary reachable subset is non-empty, it
picks the destination with minimum minutes in that subset (a member of the
results, never the primary capital, minimal among the subset); in particular
on {"A":30, "B":20, "Budapest":90} it emits (90, 20, "B"). -/
theorem reducer_min_spec :
    (∀ (res : Dict (Option Nat)) (n : String) (m : Nat),
      (dkeys res).Nodup →
      minByValue (capitalCommutes res) = some (n, m) →
      reduceResults res =
        ReducedRecord.mk ((dlookup "Budapest" res).join) (some m) (some n) ∧
      (n, some m) ∈ res ∧ ¬ n = "Budapest" ∧
      ∀ q ∈ capitalCommutes res, m ≤ q.2) ∧
    reduceResults [("A", some 30), ("B", some 20), ("Budapest", some 90)] =
      ReducedRecord.mk (some 90) (some 20) (some "B") := by
  constructor
  · intro res n m hn hmin
    have hmem : (n, m) ∈ capitalCommutes res := minByValue_mem hmin
    have hcc := mem_capitalCommutes.mp hmem
    have hccn : (dkeys (capitalCommutes res)).Nodup := nodup_dkeys_capitalCommutes hn
    have hlook : dlookup n (capitalCommutes res) = some m :=
      dlookup_of_mem_nodup hccn hmem
    refine ⟨?_, hcc.1, hcc.2, minByValue_le hmin⟩
    simp only [reduceResults, hmin, hlook]
  · decide

/-- C4 (witness): the claim's concrete example, via the general theorem. -/
theorem reducer_min_spec_witness :
    reduceResults [("A", some 30), ("B", some 20), ("Budapest", some 90)] =
      ReducedRecord.mk
        ((dlookup "Budapest"
          [("A", some 30), ("B", some 20), ("Budapest", some 90)]).join)
        (some 20) (some "B") ∧
    ("B", some 20) ∈
      ([("A", some 30), ("B", some 20), ("Budapest", some 90)] : Dict (Option Nat)) :=
  have h := reducer_min_spec.1
    [("A", some 30), ("B", some 20), ("Budapest", some 90)] "B" 20
    (by decide) (by decide)
  ⟨h.1, h.2.1⟩

/-- C5: when every non-primary destination is unreachable (the non-primary
reachable subset is empty), the Reducer emits a record with only
`budapest_minutes` populated and both nearest-capital fields `None`; with
primary-capital duration 45 it emits (45, None, None). -/
theorem reducer_all_unreachable :
    (∀ res : Dict (Option Nat), capitalCommutes res = [] →
      reduceResults res =
        ReducedRecord.mk ((dlookup "Budapest" res).join) none none) ∧
    reduceResults [("A", none), ("Budapest", some 45)] =
      ReducedRecord.mk (some 45) none none := by
  constructor
  · intro res h
    simp only [reduceResults, h, minByValue]
  · decide

/-- C5 (witness): the claim's concrete example, via the general theorem. -/
theorem reducer_all_unreachable_witness :
    reduceResults [("A", none), ("Budapest", some 45)] =
      ReducedRecord.mk
        ((dlookup "Budapest" [("A", none), ("Budapest", some 45)]).join)
        none none :=
  reducer_all_unreachable.1 [("A", none), ("Budapest", some 45)] (by decide)

/-- C6: in a response where some destinations report per-destination failure,
each failed destination is recorded as `None` while every other destination's
rounded duration is recorded — one failed element never blocks the others
(every element of the stream ends up recorded in the results dict). -/
theorem partial_failure_recorded
    (destNames : List String) (elems : List MatrixElement) (e : MatrixElement)
    (hN : destNames.Nodup)
    (hI : (elems.map (fun e => e.destinationIndex)).Nodup)
    (hB : ∀ e' ∈ elems, e'.destinationIndex < destNames.length)
    (he : e ∈ elems) :
    dlookup (destNames.getD e.destinationIndex "")
        (processElements destNames elems) =
      some (if e.statusCode = 0 then some (roundMinutes e.durationSeconds) else none) :=
  dlookup_foldl_recordElement_of_mem destNames elems [] e he
    (pairwise_names_of_nodup destNames elems hN hI hB)

/-- C6 (witness): among three destinations, the middle one fails (status 5)
and is recorded as `None`; via the general theorem. -/
theorem partial_failure_recorded_witness :
    dlookup (["A", "B", "C"].getD (MatrixElement.mk 5 0 1).destinationIndex "")
        (processElements ["A", "B", "C"]
          [MatrixElement.mk 0 600 0, MatrixElement.mk 5 0 1,
           MatrixElement.mk 0 1230 2]) =
      some (if (MatrixElement.mk 5 0 1).statusCode = 0 then
        some (roundMinutes (MatrixElement.mk 5 0 1).durationSeconds) else none) :=
  partial_failure_recorded ["A", "B", "C"]
    [MatrixElement.mk 0 600 0, MatrixElement.mk 5 0 1, MatrixElement.mk 0 1230 2]
    (MatrixElement.mk 5 0 1) (by decide) (by decide) (by decide) (by decide)

/-- C7: when the whole Oracle call fails for a town with a non-empty
destination set, `calculate_commute_times` yields `None`, the town's
processing leaves the database untouched (no write of any commute field), and
the run continues with the remaining towns. -/
theorem api_failure_skips_town
    (cd : Dict CountyRec) (cap : Dict Coords) (db : List TownRow) (t : Town)
    (rest : List Town) (oracle : Town → Option (List MatrixElement))
    (dests : Dict Coords)
    (hplan : buildDestinations cd cap t.county = some dests)
    (hne : dests ≠ [])
    (hfail : oracle t = none) :
    processTown cd cap (oracle t) db t = db ∧
    runPass cd cap oracle db (t :: rest) = runPass cd cap oracle db rest := by
  have hcct : calculate_commute_times dests (oracle t) = none := by
    simp [calculate_commute_times, hfail, List.isEmpty_iff, hne]
  have hskip : processTown cd cap (oracle t) db t = db := by
    simp only [processTown, hplan, hcct]
  refine ⟨hskip, ?_⟩
  simp only [runPass, List.foldl_cons, hskip]

/-- C7 (witness): a concrete town whose Oracle call fails is skipped and its
stored row is untouched. -/
theorem api_failure_skips_town_witness :
    processTown [("X", CountyRec.mk (some "Xc") (some []))]
      [("Xc", Coords.mk 1 2)] none [rowT] tSample = [rowT] ∧
    runPass [("X", CountyRec.mk (some "Xc") (some []))] [("Xc", Coords.mk 1 2)]
      (fun _ => none) [rowT] [tSample] =
    runPass [("X", CountyRec.mk (some "Xc") (some []))] [("Xc", Coords.mk 1 2)]
      (fun _ => none) [rowT] [] :=
  api_failure_skips_town [("X", CountyRec.mk (some "Xc") (some []))]
    [("Xc", Coords.mk 1 2)] [rowT] tSample [] (fun _ => none)
    [("Xc", Coords.mk 1 2)] (by decide) (by decide) rfl

/-- C8: the upsert-by-name write overwrites exactly the three commute fields
of each row whose name matches, preserves every other field of that row and
every other row (and the row count), and is a no-op when no row matches. -/
theorem update_town_frame (db : List TownRow) (n : String)
    (b m : Option Nat) (s : Option String) :
    (update_town_in_db db n b m s).length = db.length ∧
    (∀ (i : Nat) (r : TownRow), db[i]? = some r → ¬ r.name = n →
      (update_town_in_db db n b m s)[i]? = some r) ∧
    (∀ (i : Nat) (r : TownRow), db[i]? = some r → r.name = n →
      (update_town_in_db db n b m s)[i]? = some
        { r with
          commute_budapest_mins := b,
          commute_nearest_capital_mins := m,
          nearest_capital_name := s }) ∧
    ((∀ r ∈ db, ¬ r.name = n) → update_town_in_db db n b m s = db) := by
  refine ⟨?_, ?_, ?_, ?_⟩
  · simp [update_town_in_db]
  · intro i r hr hn
    rw [getElem?_update_town_in_db, hr]
    simp [hn]
  · intro i r hr hn
    rw [getElem?_update_town_in_db, hr]
    simp [hn]
  · intro h
    unfold update_town_in_db
    have he : ∀ r ∈ db,
        (if r.name = n then
          { r with
            commute_budapest_mins := b,
            commute_nearest_capital_mins := m,
            nearest_capital_name := s }
        else r) = id r := by
      intro r hr
      simp [h r hr]
    rw [List.map_congr_left he, List.map_id]

/-- C8 (witness): updating town "A" leaves the row of town "B" intact,
rewrites the three commute fields of "A" while keeping its other columns, and
an update aimed at an absent name changes nothing. -/
theorem update_town_frame_witness :
    (update_town_in_db [rowA, rowB] "A" (some 10) none none)[1]? = some rowB ∧
    (update_town_in_db [rowA, rowB] "A" (some 10) none none)[0]? = some
      { rowA with
        commute_budapest_mins := some 10,
        commute_nearest_capital_mins := none,
        nearest_capital_name := none } ∧
    update_town_in_db [rowA, rowB] "Z" (some 10) none none = [rowA, rowB] :=
  have h := update_town_frame [rowA, rowB] "A" (some 10) none none
  have h2 := update_town_frame [rowA, rowB] "Z" (some 10) none none
  ⟨h.2.1 1 rowB (by decide) (by decide),
   h.2.2.1 0 rowA (by decide) (by decide),
   h2.2.2.2 (by decide)⟩

/-- C9: running the Reducer's write twice with identical inputs leaves the
stored rows exactly as after the first run — the upsert is idempotent. -/
theorem update_town_idempotent (db : List TownRow) (n : String)
    (b m : Option Nat) (s : Option String) :
    update_town_in_db (update_town_in_db db n b m s) n b m s =
      update_town_in_db db n b m s := by
  unfold update_town_in_db
  rw [List.map_map]
  refine List.map_congr_left ?_
  intro r _
  by_cases h : r.name = n <;> simp [h]

/-- C10: a run iterates only over the slice `all_towns[500:1000]`: the
processed list is exactly the at-most-500 towns found at indices 500..999 of
the town list, and any stored row whose name matches no town in that slice is
never written during the whole enrichment pass. -/
theorem main_processes_slice_only (l : List Town) :
    (townsToProcess l).length = min 500 (l.length - 500) ∧
    (∀ j : Nat, j < 500 → (townsToProcess l)[j]? = l[500 + j]?) ∧
    (∀ (cd : Dict CountyRec) (cap : Dict Coords)
      (oracle : Town → Option (List MatrixElement)) (db : List TownRow)
      (i : Nat) (r : TownRow), db[i]? = some r →
      (∀ t ∈ townsToProcess l, ¬ t.name = r.name) →
      (mainEnrichment cd cap oracle db l)[i]? = some r) := by
  refine ⟨?_, ?_, ?_⟩
  · simp [townsToProcess]
  · intro j hj
    simp only [townsToProcess]
    rw [List.getElem?_take_of_lt hj, List.getElem?_drop]
  · intro cd cap oracle db i r hr h
    exact runPass_preserves_other cd cap oracle (townsToProcess l) db i r hr h

/-- C10 (witness): with 501 identical towns, the slice's first element is the
town at index 500; and a pass over a single-town list (an empty slice)
touches no stored row. -/
theorem main_processes_slice_only_witness :
    (townsToProcess (List.replicate 501 tSample))[0]? =
      (List.replicate 501 tSample)[500 + 0]? ∧
    (mainEnrichment [] [] (fun _ => none) [rowA] [tSample])[0]? = some rowA :=
  ⟨(main_processes_slice_only (List.replicate 501 tSample)).2.1 0 (by decide),
   (main_processes_slice_only [tSample]).2.2 [] [] (fun _ => none) [rowA] 0 rowA
     rfl (by decide)⟩

end Hollakyak
